import Mathlib

/-
  Shallow embedding of src/fetch_cards.py (PTCGP card-image downloader).

  The Python program is asynchronous; here it is embedded sequentially:
  network interaction is an explicit oracle (`Net`), the filesystem is an
  explicit list of structured paths, and the shared statistics dictionary
  and outcome lists are threaded state.  Every definition mirrors one
  function of the source file, with the source line range noted.
-/

namespace FetchCards

/-- Source line 54: the primary image host base URL. -/
def IMAGE_BASE_URL : String := "https://s3.pokeos.com/pokeos-uploads/tcg/pocket"

/-- Source lines 29 and 55: the fallback static host base URL. -/
def FALLBACK_BASE_URL : String :=
  "https://raw.githubusercontent.com/marcelpanse/tcg-pocket-collection-tracker/main/frontend/public/images"

/-- Source lines 20-26: the static blacklist of (set_code, number) pairs.
Five explicit pairs plus the PROMO-A range 109..117. -/
def BLACKLIST : List (String × Nat) :=
  [("A1a", 63), ("A1a", 80), ("A1a", 81), ("A2a", 75), ("A2a", 85)]
    ++ (List.range' 109 9).map (fun i => ("PROMO-A", i))

/-- Source lines 39-47: card set metadata record. -/
structure CardSet where
  id : String
  set_code : String
  set_n_cards : Nat
  set_n_secrets : Nat
  series : String
deriving DecidableEq

/-- Source lines 57-69: the configuration stored on the downloader object
by PTCGPDownloader.__init__. -/
structure Downloader where
  base_dir : String
  languages : List String
  series_list : List String
  max_concurrency : Nat
  max_retries : Nat
deriving DecidableEq

/-- Python str.upper() restricted to what the source feeds it (ASCII set
codes and series tags), modelled character by character. -/
def pyUpper (s : String) : String := ⟨s.data.map Char.toUpper⟩

/-- Character-list matcher underlying pyStartsWith. -/
def pyStartsWithAux : List Char → List Char → Bool
  | [], _ => true
  | _ :: _, [] => false
  | p :: ps, c :: cs => p == c && pyStartsWithAux ps cs

/-- Python s.startswith(pre), modelled character by character. -/
def pyStartsWith (s pre : String) : Bool := pyStartsWithAux pre.data s.data

/-- Python s[n:], modelled character by character. -/
def pyDrop (s : String) (n : Nat) : String := ⟨s.data.drop n⟩

/-- Source lines 114-117 inside fetch_sets: a raw catalog set code equal to
"PROMO" is rewritten to "PROMO-" followed by the upper-cased series tag;
every other code passes through. -/
def fetch_sets_code (series : String) (raw : String) : String :=
  if raw = "PROMO" then "PROMO-" ++ pyUpper series else raw

/-- A filesystem path as produced by get_image_path (source lines 134-145):
base_dir/images/lang/cards-by-set/set_code/number.ext.  Paths are kept
structured so that equality of paths is equality of their components. -/
structure ImagePath where
  base_dir : String
  lang : String
  set_code : String
  number : Nat
  ext : String
deriving DecidableEq

/-- Source lines 134-145: the deterministic save path of an image. -/
def get_image_path (d : Downloader) (lang : String) (set_code : String)
    (number : Nat) (ext : String) : ImagePath :=
  ⟨d.base_dir, lang, set_code, number, ext⟩

/-- Source lines 147-155: primary image URL, with the language code remapped
for zh-TW and en-US and passed through otherwise. -/
def get_image_url (set_id : String) (number : Nat) (lang : String) : String :=
  let lang_code := if lang = "zh-TW" then "zh" else if lang = "en-US" then "en" else lang
  IMAGE_BASE_URL ++ "/" ++ set_id ++ "/src/" ++ toString number ++ "_" ++ lang_code ++ ".png"

/-- Source lines 157-162: fallback URL (always under en-US, webp format);
a set code whose upper-casing starts with "PROMO-" is remapped to the
fallback host convention "P-" followed by the rest of the code. -/
def get_fallback_url (set_code : String) (number : Nat) : String :=
  let sc := if pyStartsWith (pyUpper set_code) "PROMO-"
            then "P-" ++ pyDrop set_code 6 else set_code
  FALLBACK_BASE_URL ++ "/en-US/" ++ sc ++ "-" ++ toString number ++ ".webp"

/-- Result of one HTTP GET against the primary host, as observable by
download_image (source lines 184-205): a 2xx body, a 404 status, or a
raised exception.  `transient` records whether the exception is an
instance of (aiohttp.ClientError, asyncio.TimeoutError), the exact
predicate of the tenacity retry decorator at source line 167. -/
inductive NetResult where
  | ok : NetResult
  | notFound : NetResult
  | exn (transient : Bool) : NetResult
deriving DecidableEq

/-- The network oracle for one run: the primary host answers per URL and
per attempt number (attempts are numbered from 1), and the fallback host
answers success or failure per URL. -/
structure Net where
  primary : String → Nat → NetResult
  fallback : String → Bool

/-- Source line 166: tenacity wait_exponential(multiplier, min, max) at a
given attempt number (numbered from 1): multiplier * 2 ^ (attempt - 1),
clamped into [min, max]. -/
def wait_exponential (multiplier mn mx attempt_number : Nat) : Nat :=
  max mn (min (multiplier * 2 ^ (attempt_number - 1)) mx)

/-- Final classification of a retried primary download: the body was
written, the status was 404, or an exception was re-raised to the caller. -/
inductive DLResult where
  | success : DLResult
  | notFound : DLResult
  | raised (transient : Bool) : DLResult
deriving DecidableEq

/-- Trace of one download_image call: its classification, the total number
of attempts issued, and the list of backoff delays slept between attempts. -/
structure DLTrace where
  result : DLResult
  attempts : Nat
  delays : List Nat
deriving DecidableEq

/-- The tenacity loop of source lines 164-169: `remaining` attempts are
still allowed, `attempt` is the current attempt number, `delays` the
backoff delays slept so far.  A transient exception with further attempts
remaining sleeps wait_exponential(1, 1, 10) and retries; everything else
returns at the current attempt. -/
def retryCall (net : Nat → NetResult) : Nat → Nat → List Nat → DLTrace
  | 0, attempt, delays => ⟨.raised false, attempt, delays⟩
  | 1, attempt, delays =>
    match net attempt with
    | .ok => ⟨.success, attempt, delays⟩
    | .notFound => ⟨.notFound, attempt, delays⟩
    | .exn t => ⟨.raised t, attempt, delays⟩
  | remaining + 2, attempt, delays =>
    match net attempt with
    | .ok => ⟨.success, attempt, delays⟩
    | .notFound => ⟨.notFound, attempt, delays⟩
    | .exn t =>
      if t then
        retryCall net (remaining + 1) (attempt + 1)
          (delays ++ [wait_exponential 1 1 10 attempt])
      else ⟨.raised t, attempt, delays⟩

/-- Source lines 164-205: download_image wrapped by
retry(stop_after_attempt(3), wait_exponential(multiplier=1, min=1, max=10),
retry_if_exception_type((aiohttp.ClientError, asyncio.TimeoutError)),
reraise=True).  The oracle is already specialised to the requested URL. -/
def download_image (net : Nat → NetResult) : DLTrace :=
  retryCall net 3 1 []

/-- Source lines 75-89: the stats dictionary and the three outcome lists.
downloaded_fallback models stats.get("downloaded_fallback", 0). -/
structure Stats where
  downloaded : Nat
  downloaded_fallback : Nat
  skipped : Nat
  failed : Nat
  total : Nat
  failed_items : List (String × String)
  missing_items : List (String × String)
  fallback_items : List (String × Nat × String × String)
deriving DecidableEq

/-- The initial statistics of a fresh downloader. -/
def Stats.init : Stats := ⟨0, 0, 0, 0, 0, [], [], []⟩

/-- One observable network request issued during processing. -/
inductive Event where
  | primaryReq (url : String) : Event
  | fallbackReq (url : String) : Event
deriving DecidableEq

/-- The mutable world threaded through processing: the filesystem (set of
existing paths) and the statistics object. -/
structure St where
  fs : List ImagePath
  stats : Stats
deriving DecidableEq

/-- Classification of one process_card call, following the outcome
taxonomy of the documentation: Downloaded, Skipped-exists,
Downloaded-fallback, Missing(404) and Failed, plus the probe-mode 404
result which is none of these (source lines 315-318 record nothing). -/
inductive Outcome where
  | downloaded : Outcome
  | skippedExists : Outcome
  | downloadedFallback : Outcome
  | missing : Outcome
  | failed : Outcome
  | probeNotFound : Outcome
deriving DecidableEq

/-- Result of download_from_fallback: success flag, updated world, and the
network requests issued. -/
structure FbRes where
  success : Bool
  st : St
  events : List Event
deriving DecidableEq

/-- Source lines 207-247: single-attempt fallback download.  The URL is
always the English fallback URL; the file is saved under the REQUESTED
language directory with extension webp; on success the fallback counter is
bumped and (set_code, number, lang, url) is appended to fallback_items.
Any non-2xx status or exception is a plain failure with no state change. -/
def download_from_fallback (d : Downloader) (net : Net) (st : St)
    (set_code : String) (number : Nat) (lang : String) : FbRes :=
  let url := get_fallback_url set_code number
  let filepath := get_image_path d lang set_code number "webp"
  if net.fallback url then
    ⟨true,
      { fs := filepath :: st.fs
        stats := { st.stats with
          downloaded_fallback := st.stats.downloaded_fallback + 1
          fallback_items := st.stats.fallback_items ++ [(set_code, number, lang, url)] } },
      [.fallbackReq url]⟩
  else
    ⟨false, st, [.fallbackReq url]⟩

/-- Result of process_card: the (success, is_404) pair returned by the
Python function, the outcome classification of the branch taken, the
updated world, and the network requests issued by this call. -/
structure CardRes where
  success : Bool
  is_404 : Bool
  outcome : Outcome
  st : St
  events : List Event
deriving DecidableEq

/-- Source lines 249-338: process one (set, number, lang) target.
Blacklisted targets delete any existing png for the slot and go straight
to the fallback source (lines 271-290).  Otherwise an existing file is
skipped (lines 296-299); else the primary URL is fetched through the
retry wrapper: success saves the file and counts downloaded; a 404 in
probe mode records nothing; a 404 in bulk mode tries the fallback and on
fallback failure appends (set_code, primary url) to missing_items; an
exception counts failed and appends (set_code, url) to failed_items.
(The source's line-328 else branch is unreachable: download_image only
returns (True, False) or (False, True), or raises; the raised case is the
except branch at lines 334-338.) -/
def process_card (d : Downloader) (net : Net) (st : St) (card_set : CardSet)
    (number : Nat) (lang : String) (is_probe_mode : Bool) : CardRes :=
  if (card_set.set_code, number) ∈ BLACKLIST then
    let png_path := get_image_path d lang card_set.set_code number "png"
    let st1 : St := { st with fs := st.fs.filter (fun p => p ≠ png_path) }
    let fb := download_from_fallback d net st1 card_set.set_code number lang
    if fb.success then
      ⟨true, false, .downloadedFallback, fb.st, fb.events⟩
    else
      ⟨false, false, .failed,
        { fb.st with stats := { fb.st.stats with
            failed := fb.st.stats.failed + 1
            failed_items := fb.st.stats.failed_items ++
              [(card_set.set_code,
                "fallback:" ++ card_set.set_code ++ "-" ++ toString number)] } },
        fb.events⟩
  else
    let filepath := get_image_path d lang card_set.set_code number "png"
    if filepath ∈ st.fs then
      ⟨true, false, .skippedExists,
        { st with stats := { st.stats with skipped := st.stats.skipped + 1 } }, []⟩
    else
      let url := get_image_url card_set.id number lang
      let tr := download_image (net.primary url)
      let evs := List.replicate tr.attempts (Event.primaryReq url)
      match tr.result with
      | .success =>
        ⟨true, false, .downloaded,
          { st with
            fs := filepath :: st.fs
            stats := { st.stats with downloaded := st.stats.downloaded + 1 } }, evs⟩
      | .notFound =>
        if is_probe_mode then
          ⟨false, true, .probeNotFound, st, evs⟩
        else
          let fb := download_from_fallback d net st card_set.set_code number lang
          if fb.success then
            ⟨true, false, .downloadedFallback, fb.st, evs ++ fb.events⟩
          else
            ⟨false, false, .missing,
              { fb.st with stats := { fb.st.stats with
                  missing_items := fb.st.stats.missing_items ++
                    [(card_set.set_code, url)] } },
              evs ++ fb.events⟩
      | .raised _ =>
        ⟨false, false, .failed,
          { st with stats := { st.stats with
              failed := st.stats.failed + 1
              failed_items := st.stats.failed_items ++ [(card_set.set_code, url)] } },
          evs⟩

/-- The loop body of probe_cards (source lines 340-368) recursing over the
remaining card numbers, carrying the consecutive-404 counter.  Returns the
final world, the list of numbers visited (in order), and the accumulated
network requests.   A 404 raising the counter to 3 stops the scan; any
non-404 outcome resets the counter to 0; exhausting the number list is the
hard ceiling. -/
def probe_go (d : Downloader) (net : Net) (card_set : CardSet) (lang : String) :
    List Nat → Nat → St → St × List Nat × List Event
  | [], _, st => (st, [], [])
  | number :: rest, consecutive_404, st =>
    let r := process_card d net st card_set number lang true
    if r.is_404 then
      if consecutive_404 + 1 ≥ 3 then
        (r.st, [number], r.events)
      else
        let g := probe_go d net card_set lang rest (consecutive_404 + 1) r.st
        (g.1, number :: g.2.1, r.events ++ g.2.2)
    else
      let g := probe_go d net card_set lang rest 0 r.st
      (g.1, number :: g.2.1, r.events ++ g.2.2)

/-- Source lines 340-368: probe mode scans numbers 1, 2, ... up to
max_number (default 200 at the call site), stopping early after 3
consecutive 404 results. -/
def probe_cards (d : Downloader) (net : Net) (card_set : CardSet)
    (lang : String) (st : St) (max_number : Nat) : St × List Nat × List Event :=
  probe_go d net card_set lang (List.range' 1 max_number) 0 st

/-- One orchestrator fan-out element: a single process_card invocation. -/
structure Target where
  card_set : CardSet
  number : Nat
  lang : String
  is_probe_mode : Bool
deriving DecidableEq

/-- The orchestrator fan-out of source lines 370-397 and 457-465,
sequentialised: process each target in order, threading the world, and
collect the outcome of every call. -/
def run_targets (d : Downloader) (net : Net) : List Target → St → St × List Outcome
  | [], st => (st, [])
  | t :: ts, st =>
    let r := process_card d net st t.card_set t.number t.lang t.is_probe_mode
    ((run_targets d net ts r.st).1,
     r.outcome :: (run_targets d net ts r.st).2)

/-- A path whose (set_code, number) pair is on the static blacklist. -/
def blacklistedPath (p : ImagePath) : Prop := (p.set_code, p.number) ∈ BLACKLIST

instance (p : ImagePath) : Decidable (blacklistedPath p) := by
  unfold blacklistedPath; infer_instance

/-! ### Concrete fixtures used by witnesses and scenario theorems -/

/-- A concrete downloader configuration. -/
def dFix : Downloader := ⟨".", ["zh-TW", "en-US"], ["a", "b"], 20, 3⟩

/-- A concrete bulk-mode card set; "S0" is not a blacklisted set code. -/
def csFix : CardSet := ⟨"sid", "S0", 10, 0, "a"⟩

/-- A concrete probe-mode card set (declared card count 0). -/
def csProbe : CardSet := ⟨"SID", "S0", 0, 0, "a"⟩

/-- A concrete card set holding blacklisted targets such as ("A1a", 63). -/
def csBL : CardSet := ⟨"a1a", "A1a", 103, 0, "a"⟩

/-- The empty world: no files, fresh statistics. -/
def stEmpty : St := ⟨[], Stats.init⟩

/-- Oracle: every primary request succeeds, every fallback fails. -/
def netOkAll : Net := ⟨fun _ _ => .ok, fun _ => false⟩

/-- Oracle: every primary request is a 404 and every fallback fails. -/
def netAll404 : Net := ⟨fun _ _ => .notFound, fun _ => false⟩

/-- Oracle: every primary request is a 404, every fallback succeeds. -/
def netFbOk : Net := ⟨fun _ _ => .notFound, fun _ => true⟩

/-- Per-attempt oracle: transient failures on attempts 1 and 2, success on
attempt 3. -/
def flakyOracle : Nat → NetResult := fun a => if 3 ≤ a then .ok else .exn true

/-- The primary URLs that exist in the probe scenario of the specification:
cards 1-5 and 7 of the probe fixture set, in English. -/
def presentUrls : List String :=
  [get_image_url "SID" 1 "en-US", get_image_url "SID" 2 "en-US",
   get_image_url "SID" 3 "en-US", get_image_url "SID" 4 "en-US",
   get_image_url "SID" 5 "en-US", get_image_url "SID" 7 "en-US"]

/-- Oracle for the probe scenario: primary requests succeed exactly on the
present URLs and 404 elsewhere; fallbacks all fail. -/
def netScenario : Net :=
  ⟨fun url _ => if url ∈ presentUrls then .ok else .notFound, fun _ => false⟩

/-! ### Helper lemmas -/

/-- Every blacklist entry names one of the three known set codes. -/
theorem blacklist_fst : ∀ p ∈ BLACKLIST,
    p.1 = "A1a" ∨ p.1 = "A2a" ∨ p.1 = "PROMO-A" := by decide

/-- The retry loop, started with at least one attempt allowed, returns at
an attempt number between `att` and `att + rem - 1` and its delay list is
the input list extended by one wait_exponential entry per retried attempt. -/
theorem retryCall_spec (net : Nat → NetResult) :
    ∀ rem att dly, 1 ≤ rem →
      att ≤ (retryCall net rem att dly).attempts ∧
      (retryCall net rem att dly).attempts + 1 ≤ att + rem ∧
      (retryCall net rem att dly).delays =
        dly ++ (List.range' att ((retryCall net rem att dly).attempts - att)).map
          (wait_exponential 1 1 10) := by
  intro rem
  induction rem using Nat.strong_induction_on with
  | _ rem ih =>
    rcases rem with _ | _ | r
    · intro att dly h; omega
    · intro att dly _
      show att ≤ (retryCall net 1 att dly).attempts ∧ _
      rcases hnet : net att with _ | _ | t
      · simp [retryCall, hnet]
      · simp [retryCall, hnet]
      · simp [retryCall, hnet]
    · intro att dly _
      show att ≤ (retryCall net (r + 2) att dly).attempts ∧ _
      rcases hnet : net att with _ | _ | t
      · simp [retryCall, hnet]
      · simp [retryCall, hnet]
      · rcases t with _ | _
        · simp [retryCall, hnet]
        · have heq : retryCall net (r + 2) att dly =
              retryCall net (r + 1) (att + 1)
                (dly ++ [wait_exponential 1 1 10 att]) := by
            rw [retryCall, hnet]; simp
          rw [heq]
          obtain ⟨ha, hb, hc⟩ :=
            ih (r + 1) (by omega) (att + 1)
              (dly ++ [wait_exponential 1 1 10 att]) (by omega)
          refine ⟨by omega, by omega, ?_⟩
          rw [hc]
          have h2 : (retryCall net (r + 1) (att + 1)
              (dly ++ [wait_exponential 1 1 10 att])).attempts - att =
              ((retryCall net (r + 1) (att + 1)
                (dly ++ [wait_exponential 1 1 10 att])).attempts - (att + 1)) + 1 := by
            omega
          rw [h2, List.range'_succ]
          simp

/-- download_image makes between 1 and 3 attempts, and its delay list is
exactly one wait_exponential(1, 1, 10) entry per attempt that was retried. -/
theorem download_image_spec (net : Nat → NetResult) :
    1 ≤ (download_image net).attempts ∧
    (download_image net).attempts ≤ 3 ∧
    (download_image net).delays =
      (List.range' 1 ((download_image net).attempts - 1)).map
        (wait_exponential 1 1 10) := by
  have := retryCall_spec net 3 1 [] (by omega)
  unfold download_image
  exact ⟨this.1, by omega, by simpa using this.2.2⟩

/-- Blacklist branch of process_card: exactly one fallback request, no
primary request, outcome decided by the fallback answer. -/
theorem process_card_blacklisted (d : Downloader) (net : Net) (st : St)
    (cs : CardSet) (n : Nat) (lang : String) (m : Bool)
    (hb : (cs.set_code, n) ∈ BLACKLIST) :
    (process_card d net st cs n lang m).events =
      [.fallbackReq (get_fallback_url cs.set_code n)] ∧
    (process_card d net st cs n lang m).outcome =
      (if net.fallback (get_fallback_url cs.set_code n)
       then .downloadedFallback else .failed) := by
  by_cases hf : net.fallback (get_fallback_url cs.set_code n)
  · simp [process_card, download_from_fallback, if_pos hb, hf]
  · simp [process_card, download_from_fallback, if_pos hb, hf]

/-- Existing-file branch of process_card: no request, skipped counter bump. -/
theorem process_card_exists (d : Downloader) (net : Net) (st : St)
    (cs : CardSet) (n : Nat) (lang : String) (m : Bool)
    (hb : (cs.set_code, n) ∉ BLACKLIST)
    (hf : get_image_path d lang cs.set_code n "png" ∈ st.fs) :
    process_card d net st cs n lang m =
      ⟨true, false, .skippedExists,
        { st with stats := { st.stats with skipped := st.stats.skipped + 1 } },
        []⟩ := by
  simp [process_card, if_neg hb, if_pos hf]

/-- Primary-success branch of process_card. -/
theorem process_card_primary_success (d : Downloader) (net : Net) (st : St)
    (cs : CardSet) (n : Nat) (lang : String) (m : Bool)
    (hb : (cs.set_code, n) ∉ BLACKLIST)
    (hf : get_image_path d lang cs.set_code n "png" ∉ st.fs)
    (hs : (download_image (net.primary (get_image_url cs.id n lang))).result
      = .success) :
    process_card d net st cs n lang m =
      ⟨true, false, .downloaded,
        { st with
          fs := get_image_path d lang cs.set_code n "png" :: st.fs
          stats := { st.stats with downloaded := st.stats.downloaded + 1 } },
        List.replicate
          (download_image (net.primary (get_image_url cs.id n lang))).attempts
          (Event.primaryReq (get_image_url cs.id n lang))⟩ := by
  simp [process_card, if_neg hb, if_neg hf, hs]

/-- Probe-mode primary-404 branch of process_card: state untouched. -/
theorem process_card_probe_404 (d : Downloader) (net : Net) (st : St)
    (cs : CardSet) (n : Nat) (lang : String)
    (hb : (cs.set_code, n) ∉ BLACKLIST)
    (hf : get_image_path d lang cs.set_code n "png" ∉ st.fs)
    (hnf : (download_image (net.primary (get_image_url cs.id n lang))).result
      = .notFound) :
    process_card d net st cs n lang true =
      ⟨false, true, .probeNotFound, st,
        List.replicate
          (download_image (net.primary (get_image_url cs.id n lang))).attempts
          (Event.primaryReq (get_image_url cs.id n lang))⟩ := by
  simp [process_card, if_neg hb, if_neg hf, hnf]

/-- Bulk-mode primary-404 branch with successful fallback. -/
theorem process_card_bulk_404_fb_ok (d : Downloader) (net : Net) (st : St)
    (cs : CardSet) (n : Nat) (lang : String)
    (hb : (cs.set_code, n) ∉ BLACKLIST)
    (hf : get_image_path d lang cs.set_code n "png" ∉ st.fs)
    (hnf : (download_image (net.primary (get_image_url cs.id n lang))).result
      = .notFound)
    (hfb : net.fallback (get_fallback_url cs.set_code n) = true) :
    process_card d net st cs n lang false =
      ⟨true, false, .downloadedFallback,
        { fs := get_image_path d lang cs.set_code n "webp" :: st.fs
          stats := { st.stats with
            downloaded_fallback := st.stats.downloaded_fallback + 1
            fallback_items := st.stats.fallback_items ++
              [(cs.set_code, n, lang, get_fallback_url cs.set_code n)] } },
        List.replicate
          (download_image (net.primary (get_image_url cs.id n lang))).attempts
          (Event.primaryReq (get_image_url cs.id n lang)) ++
          [.fallbackReq (get_fallback_url cs.set_code n)]⟩ := by
  simp [process_card, download_from_fallback, if_neg hb, if_neg hf, hnf, hfb]

/-- Bulk-mode primary-404 branch with failed fallback: the PRIMARY url is
appended to missing_items. -/
theorem process_card_bulk_404_fb_fail (d : Downloader) (net : Net) (st : St)
    (cs : CardSet) (n : Nat) (lang : String)
    (hb : (cs.set_code, n) ∉ BLACKLIST)
    (hf : get_image_path d lang cs.set_code n "png" ∉ st.fs)
    (hnf : (download_image (net.primary (get_image_url cs.id n lang))).result
      = .notFound)
    (hfb : net.fallback (get_fallback_url cs.set_code n) = false) :
    process_card d net st cs n lang false =
      ⟨false, false, .missing,
        { st with stats := { st.stats with
            missing_items := st.stats.missing_items ++
              [(cs.set_code, get_image_url cs.id n lang)] } },
        List.replicate
          (download_image (net.primary (get_image_url cs.id n lang))).attempts
          (Event.primaryReq (get_image_url cs.id n lang)) ++
          [.fallbackReq (get_fallback_url cs.set_code n)]⟩ := by
  simp [process_card, download_from_fallback, if_neg hb, if_neg hf, hnf, hfb]

/-- Exhausted-retry branch of process_card. -/
theorem process_card_raised (d : Downloader) (net : Net) (st : St)
    (cs : CardSet) (n : Nat) (lang : String) (m : Bool) (t : Bool)
    (hb : (cs.set_code, n) ∉ BLACKLIST)
    (hf : get_image_path d lang cs.set_code n "png" ∉ st.fs)
    (hr : (download_image (net.primary (get_image_url cs.id n lang))).result
      = .raised t) :
    process_card d net st cs n lang m =
      ⟨false, false, .failed,
        { st with stats := { st.stats with
            failed := st.stats.failed + 1
            failed_items := st.stats.failed_items ++
              [(cs.set_code, get_image_url cs.id n lang)] } },
        List.replicate
          (download_image (net.primary (get_image_url cs.id n lang))).attempts
          (Event.primaryReq (get_image_url cs.id n lang))⟩ := by
  simp [process_card, if_neg hb, if_neg hf, hr]

/-- Blacklist branch, fallback success: full resulting state. -/
theorem process_card_blacklist_fb_ok (d : Downloader) (net : Net) (st : St)
    (cs : CardSet) (n : Nat) (lang : String) (m : Bool)
    (hb : (cs.set_code, n) ∈ BLACKLIST)
    (hfb : net.fallback (get_fallback_url cs.set_code n) = true) :
    process_card d net st cs n lang m =
      ⟨true, false, .downloadedFallback,
        { fs := get_image_path d lang cs.set_code n "webp" ::
            st.fs.filter (fun p => p ≠ get_image_path d lang cs.set_code n "png")
          stats := { st.stats with
            downloaded_fallback := st.stats.downloaded_fallback + 1
            fallback_items := st.stats.fallback_items ++
              [(cs.set_code, n, lang, get_fallback_url cs.set_code n)] } },
        [.fallbackReq (get_fallback_url cs.set_code n)]⟩ := by
  simp [process_card, download_from_fallback, if_pos hb, hfb]

/-- Blacklist branch, fallback failure: full resulting state. -/
theorem process_card_blacklist_fb_fail (d : Downloader) (net : Net) (st : St)
    (cs : CardSet) (n : Nat) (lang : String) (m : Bool)
    (hb : (cs.set_code, n) ∈ BLACKLIST)
    (hfb : net.fallback (get_fallback_url cs.set_code n) = false) :
    process_card d net st cs n lang m =
      ⟨false, false, .failed,
        { fs := st.fs.filter (fun p => p ≠ get_image_path d lang cs.set_code n "png")
          stats := { st.stats with
            failed := st.stats.failed + 1
            failed_items := st.stats.failed_items ++
              [(cs.set_code, "fallback:" ++ cs.set_code ++ "-" ++ toString n)] } },
        [.fallbackReq (get_fallback_url cs.set_code n)]⟩ := by
  simp [process_card, download_from_fallback, if_pos hb, hfb]

/-- process_card never removes a non-blacklisted path from the filesystem. -/
theorem process_card_fs_mono (d : Downloader) (net : Net) (st : St)
    (cs : CardSet) (n : Nat) (lang : String) (m : Bool) (p : ImagePath)
    (hp : ¬ blacklistedPath p) (hmem : p ∈ st.fs) :
    p ∈ (process_card d net st cs n lang m).st.fs := by
  by_cases hb : (cs.set_code, n) ∈ BLACKLIST
  · have hne : p ≠ get_image_path d lang cs.set_code n "png" := by
      intro h
      apply hp
      rw [h]
      show ((get_image_path d lang cs.set_code n "png").set_code,
        (get_image_path d lang cs.set_code n "png").number) ∈ BLACKLIST
      simpa [get_image_path] using hb
    have hfilter : p ∈ st.fs.filter
        (fun q => q ≠ get_image_path d lang cs.set_code n "png") := by
      rw [List.mem_filter]
      exact ⟨hmem, by simpa using hne⟩
    by_cases hfb : net.fallback (get_fallback_url cs.set_code n) = true
    · rw [process_card_blacklist_fb_ok d net st cs n lang m hb hfb]
      exact List.mem_cons_of_mem _ hfilter
    · rw [process_card_blacklist_fb_fail d net st cs n lang m hb
        (by simpa using hfb)]
      exact hfilter
  · by_cases hf : get_image_path d lang cs.set_code n "png" ∈ st.fs
    · rw [process_card_exists d net st cs n lang m hb hf]
      exact hmem
    · rcases hres : (download_image (net.primary (get_image_url cs.id n lang))).result
        with _ | _ | t
      · rw [process_card_primary_success d net st cs n lang m hb hf hres]
        exact List.mem_cons_of_mem _ hmem
      · cases m
        · by_cases hfb : net.fallback (get_fallback_url cs.set_code n) = true
          · rw [process_card_bulk_404_fb_ok d net st cs n lang hb hf hres hfb]
            exact List.mem_cons_of_mem _ hmem
          · rw [process_card_bulk_404_fb_fail d net st cs n lang hb hf hres
              (by simpa using hfb)]
            exact hmem
        · rw [process_card_probe_404 d net st cs n lang hb hf hres]
          exact hmem
      · rw [process_card_raised d net st cs n lang m t hb hf hres]
        exact hmem

/-- A Downloaded outcome can only come from the primary-success branch:
the target is not blacklisted, its file was absent, the retried primary
GET succeeded, and the file is present afterwards. -/
theorem process_card_downloaded_inv (d : Downloader) (net : Net) (st : St)
    (cs : CardSet) (n : Nat) (lang : String) (m : Bool)
    (hout : (process_card d net st cs n lang m).outcome = .downloaded) :
    (cs.set_code, n) ∉ BLACKLIST ∧
    get_image_path d lang cs.set_code n "png" ∉ st.fs ∧
    (download_image (net.primary (get_image_url cs.id n lang))).result
      = .success ∧
    get_image_path d lang cs.set_code n "png"
      ∈ (process_card d net st cs n lang m).st.fs := by
  by_cases hb : (cs.set_code, n) ∈ BLACKLIST
  · by_cases hfb : net.fallback (get_fallback_url cs.set_code n) = true
    · rw [process_card_blacklist_fb_ok d net st cs n lang m hb hfb] at hout
      simp at hout
    · rw [process_card_blacklist_fb_fail d net st cs n lang m hb
        (by simpa using hfb)] at hout
      simp at hout
  · by_cases hf : get_image_path d lang cs.set_code n "png" ∈ st.fs
    · rw [process_card_exists d net st cs n lang m hb hf] at hout
      simp at hout
    · rcases hres : (download_image (net.primary (get_image_url cs.id n lang))).result
        with _ | _ | t
      · refine ⟨hb, hf, rfl, ?_⟩
        rw [process_card_primary_success d net st cs n lang m hb hf hres]
        exact List.mem_cons_self _ _
      · cases m
        · by_cases hfb : net.fallback (get_fallback_url cs.set_code n) = true
          · rw [process_card_bulk_404_fb_ok d net st cs n lang hb hf hres hfb] at hout
            simp at hout
          · rw [process_card_bulk_404_fb_fail d net st cs n lang hb hf hres
              (by simpa using hfb)] at hout
            simp at hout
        · rw [process_card_probe_404 d net st cs n lang hb hf hres] at hout
          simp at hout
      · rw [process_card_raised d net st cs n lang m t hb hf hres] at hout
        simp at hout

/-- Without a primary success there is no Downloaded outcome. -/
theorem process_card_not_downloaded (d : Downloader) (net : Net) (st : St)
    (cs : CardSet) (n : Nat) (lang : String) (m : Bool)
    (hns : (download_image (net.primary (get_image_url cs.id n lang))).result
      ≠ .success) :
    (process_card d net st cs n lang m).outcome ≠ .downloaded := by
  intro hout
  exact hns (process_card_downloaded_inv d net st cs n lang m hout).2.2.1

/-- One-step equation of the sequential fan-out. -/
theorem run_targets_cons (d : Downloader) (net : Net) (t : Target)
    (ts : List Target) (st : St) :
    run_targets d net (t :: ts) st =
      ((run_targets d net ts
          (process_card d net st t.card_set t.number t.lang t.is_probe_mode).st).1,
        (process_card d net st t.card_set t.number t.lang t.is_probe_mode).outcome ::
        (run_targets d net ts
          (process_card d net st t.card_set t.number t.lang t.is_probe_mode).st).2) :=
  rfl

/-- A run never removes a non-blacklisted path from the filesystem. -/
theorem run_targets_fs_mono (d : Downloader) (net : Net) :
    ∀ (ts : List Target) (st : St) (p : ImagePath),
      ¬ blacklistedPath p → p ∈ st.fs → p ∈ (run_targets d net ts st).1.fs := by
  intro ts
  induction ts with
  | nil =>
    intro st p hp hm
    simpa [run_targets] using hm
  | cons t ts ih =>
    intro st p hp hm
    rw [run_targets_cons]
    exact ih _ p hp (process_card_fs_mono d net st t.card_set t.number t.lang
      t.is_probe_mode p hp hm)

/-- Core of the idempotence argument: if every non-blacklisted file present
after the first pass over `ts` (started from `A`) is present in `B`, then a
second pass over `ts` started from `B` produces no Downloaded outcome, and
every position that was Downloaded in the first pass is Skipped-exists in
the second. -/
theorem run_twice_aux (d : Downloader) (net : Net) :
    ∀ (ts : List Target) (A B : St),
      (∀ p, ¬ blacklistedPath p →
        p ∈ (run_targets d net ts A).1.fs → p ∈ B.fs) →
      (∀ o ∈ (run_targets d net ts B).2, o ≠ Outcome.downloaded) ∧
      (∀ i, (run_targets d net ts A).2.get? i = some Outcome.downloaded →
            (run_targets d net ts B).2.get? i = some Outcome.skippedExists) := by
  intro ts
  induction ts with
  | nil =>
    intro A B _
    constructor
    · intro o ho
      simp [run_targets] at ho
    · intro i hi
      simp [run_targets] at hi
  | cons t ts ih =>
    intro A B hinv
    have hinv' : ∀ p, ¬ blacklistedPath p →
        p ∈ (run_targets d net ts
          (process_card d net A t.card_set t.number t.lang t.is_probe_mode).st).1.fs →
        p ∈ B.fs := by
      intro p hp hmem
      apply hinv p hp
      rw [run_targets_cons]
      exact hmem
    have hhead : (process_card d net B t.card_set t.number t.lang
        t.is_probe_mode).outcome ≠ Outcome.downloaded ∧
        ((process_card d net A t.card_set t.number t.lang t.is_probe_mode).outcome
            = Outcome.downloaded →
          (process_card d net B t.card_set t.number t.lang t.is_probe_mode).outcome
            = Outcome.skippedExists) := by
      by_cases hb : (t.card_set.set_code, t.number) ∈ BLACKLIST
      · constructor
        · intro h
          exact (process_card_downloaded_inv d net B t.card_set t.number t.lang
            t.is_probe_mode h).1 hb
        · intro h
          exact absurd hb (process_card_downloaded_inv d net A t.card_set t.number
            t.lang t.is_probe_mode h).1
      · have hnbp : ¬ blacklistedPath
            (get_image_path d t.lang t.card_set.set_code t.number "png") := by
          simpa [blacklistedPath, get_image_path] using hb
        by_cases hfB : get_image_path d t.lang t.card_set.set_code t.number "png" ∈ B.fs
        · rw [process_card_exists d net B t.card_set t.number t.lang
            t.is_probe_mode hb hfB]
          exact ⟨by simp, fun _ => rfl⟩
        · have hAnd : (process_card d net A t.card_set t.number t.lang
              t.is_probe_mode).outcome ≠ Outcome.downloaded := by
            intro h
            have hin := (process_card_downloaded_inv d net A t.card_set t.number
              t.lang t.is_probe_mode h).2.2.2
            have := run_targets_fs_mono d net ts _ _ hnbp hin
            exact hfB (hinv' _ hnbp this)
          have hfA : get_image_path d t.lang t.card_set.set_code t.number "png"
              ∉ A.fs := by
            intro h
            have hin := process_card_fs_mono d net A t.card_set t.number t.lang
              t.is_probe_mode _ hnbp h
            have := run_targets_fs_mono d net ts _ _ hnbp hin
            exact hfB (hinv' _ hnbp this)
          have hns : (download_image (net.primary
              (get_image_url t.card_set.id t.number t.lang))).result
              ≠ DLResult.success := by
            intro h
            apply hAnd
            rw [process_card_primary_success d net A t.card_set t.number t.lang
              t.is_probe_mode hb hfA h]
          exact ⟨process_card_not_downloaded d net B t.card_set t.number t.lang
            t.is_probe_mode hns, fun h => absurd h hAnd⟩
    have htail := ih
      (process_card d net A t.card_set t.number t.lang t.is_probe_mode).st
      (process_card d net B t.card_set t.number t.lang t.is_probe_mode).st
      (by
        intro p hp hmem
        exact process_card_fs_mono d net B t.card_set t.number t.lang
          t.is_probe_mode p hp (hinv' p hp hmem))
    constructor
    · intro o ho
      rw [run_targets_cons] at ho
      rcases List.mem_cons.mp ho with h | h
      · rw [h]
        exact hhead.1
      · exact htail.1 o h
    · intro i hi
      rw [run_targets_cons] at hi ⊢
      cases i with
      | zero =>
        simp only [List.get?] at hi ⊢
        have := hhead.2 (Option.some.inj hi)
        rw [this]
      | succ j =>
        simp only [List.get?] at hi ⊢
        exact htail.2 j hi

/-- One step of the tenacity loop under a transient error with attempts
remaining: sleep the exponential wait and move to the next attempt. -/
theorem retryCall_step_transient (net : Nat → NetResult) (r att : Nat)
    (dly : List Nat) (h : net att = NetResult.exn true) :
    retryCall net (r + 2) att dly =
      retryCall net (r + 1) (att + 1) (dly ++ [wait_exponential 1 1 10 att]) := by
  rw [retryCall, h]
  simp

/-- A final attempt that succeeds returns success with no extra delay. -/
theorem retryCall_last_ok (net : Nat → NetResult) (att : Nat) (dly : List Nat)
    (h : net att = NetResult.ok) :
    retryCall net 1 att dly = ⟨DLResult.success, att, dly⟩ := by
  rw [retryCall, h]

/-- Two transient failures followed by a success: three attempts, delays
1 then 2. -/
theorem download_image_flaky (net : Nat → NetResult)
    (h1 : net 1 = NetResult.exn true) (h2 : net 2 = NetResult.exn true)
    (h3 : net 3 = NetResult.ok) :
    download_image net = ⟨DLResult.success, 3, [1, 2]⟩ := by
  unfold download_image
  have e1 : retryCall net 3 1 [] =
      retryCall net 2 2 [wait_exponential 1 1 10 1] := by
    simpa using retryCall_step_transient net 1 1 [] h1
  have e2 : retryCall net 2 2 [wait_exponential 1 1 10 1] =
      retryCall net 1 3
        [wait_exponential 1 1 10 1, wait_exponential 1 1 10 2] := by
    simpa using retryCall_step_transient net 0 2 [wait_exponential 1 1 10 1] h2
  rw [e1, e2, retryCall_last_ok net 3 _ h3]
  decide

/-- The backoff schedule starts at one time unit. -/
theorem wait_exponential_one : wait_exponential 1 1 10 1 = 1 := by decide

/-- The backoff schedule doubles from one attempt to the next, capped at
ten time units. -/
theorem wait_exponential_doubling (k : Nat) :
    wait_exponential 1 1 10 (k + 2) =
      min (2 * wait_exponential 1 1 10 (k + 1)) 10 := by
  unfold wait_exponential
  have e1 : k + 2 - 1 = k + 1 := by omega
  have e2 : k + 1 - 1 = k := by omega
  rw [e1, e2]
  have h1 : 1 ≤ 2 ^ k := Nat.one_le_two_pow
  have h2 : 2 ^ (k + 1) = 2 * 2 ^ k := by rw [pow_succ]; ring
  simp only [one_mul]
  omega

/-- The backoff schedule never exceeds ten time units. -/
theorem wait_exponential_cap (k : Nat) : wait_exponential 1 1 10 k ≤ 10 := by
  unfold wait_exponential
  have := Nat.min_le_right (1 * 2 ^ (k - 1)) 10
  omega

/-- Under the all-success oracle no call ever reports a 404. -/
theorem process_card_netOkAll_is_404 (d : Downloader) (st : St) (cs : CardSet)
    (n : Nat) (lang : String) (m : Bool) :
    (process_card d netOkAll st cs n lang m).is_404 = false := by
  by_cases hb : (cs.set_code, n) ∈ BLACKLIST
  · rw [process_card_blacklist_fb_fail d netOkAll st cs n lang m hb rfl]
  · by_cases hf : get_image_path d lang cs.set_code n "png" ∈ st.fs
    · rw [process_card_exists d netOkAll st cs n lang m hb hf]
    · rw [process_card_primary_success d netOkAll st cs n lang m hb hf rfl]

/-- Under the all-success oracle the probe scan visits its whole range:
the consecutive-404 counter is reset by every outcome. -/
theorem probe_go_netOkAll (d : Downloader) (cs : CardSet) (lang : String) :
    ∀ (l : List Nat) (c : Nat) (st : St),
      (probe_go d netOkAll cs lang l c st).2.1 = l := by
  intro l
  induction l with
  | nil => intro c st; rfl
  | cons n rest ih =>
    intro c st
    simp only [probe_go, process_card_netOkAll_is_404, Bool.false_eq_true,
      if_false]
    simpa using ih 0 _

/-! ### Claim theorems -/

/-- C1 counterexample: the claim "for EVERY target whose image file already
exists, process_card makes zero network calls and returns Skipped-exists"
is false on the code: for the blacklisted target ("A1a", 63) whose png file
exists on disk, process_card deletes the file, issues a fallback request
(a network call) and does not return Skipped-exists. -/
theorem C1_counterexample :
    (get_image_path dFix "en-US" "A1a" 63 "png" ∈
      (⟨[get_image_path dFix "en-US" "A1a" 63 "png"], Stats.init⟩ : St).fs) ∧
    (process_card dFix netAll404
        ⟨[get_image_path dFix "en-US" "A1a" 63 "png"], Stats.init⟩
        csBL 63 "en-US" false).outcome ≠ Outcome.skippedExists ∧
    (process_card dFix netAll404
        ⟨[get_image_path dFix "en-US" "A1a" 63 "png"], Stats.init⟩
        csBL 63 "en-US" false).events ≠ [] := by
  decide

/-- C1 (amended): for every NON-BLACKLISTED DownloadTarget whose image file
already exists on disk, process_card makes zero network calls and returns
the Skipped-exists outcome, incrementing only the skipped counter, for
every language, set and mode. -/
theorem C1_skip_existing (d : Downloader) (net : Net) (st : St) (cs : CardSet)
    (n : Nat) (lang : String) (m : Bool)
    (hb : (cs.set_code, n) ∉ BLACKLIST)
    (hf : get_image_path d lang cs.set_code n "png" ∈ st.fs) :
    (process_card d net st cs n lang m).events = [] ∧
    (process_card d net st cs n lang m).outcome = Outcome.skippedExists ∧
    (process_card d net st cs n lang m).st =
      { st with stats := { st.stats with skipped := st.stats.skipped + 1 } } := by
  rw [process_card_exists d net st cs n lang m hb hf]
  exact ⟨rfl, rfl, rfl⟩

/-- C1 witness: concrete non-blacklisted target ("S0", 5) with its file on
disk is skipped with no network call. -/
theorem C1_witness :
    (process_card dFix netAll404
        ⟨[get_image_path dFix "en-US" "S0" 5 "png"], Stats.init⟩
        csFix 5 "en-US" false).events = [] ∧
    (process_card dFix netAll404
        ⟨[get_image_path dFix "en-US" "S0" 5 "png"], Stats.init⟩
        csFix 5 "en-US" false).outcome = Outcome.skippedExists := by
  have h := C1_skip_existing dFix netAll404
    ⟨[get_image_path dFix "en-US" "S0" 5 "png"], Stats.init⟩
    csFix 5 "en-US" false (by decide) (by decide)
  exact ⟨h.1, h.2.1⟩

/-- C2: for every blacklisted target, process_card issues exactly one
fallback request and no primary request, and returns Downloaded-fallback
on fallback success and Failed on fallback failure. -/
theorem C2_blacklist_fallback_only (d : Downloader) (net : Net) (st : St)
    (cs : CardSet) (n : Nat) (lang : String) (m : Bool)
    (hb : (cs.set_code, n) ∈ BLACKLIST) :
    (process_card d net st cs n lang m).events =
      [Event.fallbackReq (get_fallback_url cs.set_code n)] ∧
    (∀ u, Event.primaryReq u ∉ (process_card d net st cs n lang m).events) ∧
    (process_card d net st cs n lang m).outcome =
      (if net.fallback (get_fallback_url cs.set_code n)
       then Outcome.downloadedFallback else Outcome.failed) := by
  have h := process_card_blacklisted d net st cs n lang m hb
  refine ⟨h.1, ?_, h.2⟩
  intro u hu
  rw [h.1] at hu
  simp at hu

/-- C2 witness: the blacklisted target ("A1a", 63) with a succeeding
fallback host: one fallback request, Downloaded-fallback. -/
theorem C2_witness :
    (process_card dFix netFbOk stEmpty csBL 63 "en-US" false).events =
      [Event.fallbackReq (get_fallback_url "A1a" 63)] ∧
    (process_card dFix netFbOk stEmpty csBL 63 "en-US" false).outcome =
      Outcome.downloadedFallback := by
  have h := C2_blacklist_fallback_only dFix netFbOk stEmpty csBL 63 "en-US"
    false (by decide)
  exact ⟨h.1, h.2.2⟩

/-- C5: in probe mode, for every non-blacklisted target, a primary 404
leaves the whole world unchanged (no missing entry, no failed entry, no
failed counter change), classifies as the probe-404 outcome, and issues no
fallback request. -/
theorem C5_probe_404_silent (d : Downloader) (net : Net) (st : St)
    (cs : CardSet) (n : Nat) (lang : String)
    (hb : (cs.set_code, n) ∉ BLACKLIST)
    (h404 : (process_card d net st cs n lang true).is_404 = true) :
    (process_card d net st cs n lang true).st = st ∧
    (process_card d net st cs n lang true).outcome = Outcome.probeNotFound ∧
    (∀ u, Event.fallbackReq u ∉ (process_card d net st cs n lang true).events) := by
  by_cases hf : get_image_path d lang cs.set_code n "png" ∈ st.fs
  · rw [process_card_exists d net st cs n lang true hb hf] at h404
    simp at h404
  · rcases hres : (download_image (net.primary (get_image_url cs.id n lang))).result
      with _ | _ | t
    · rw [process_card_primary_success d net st cs n lang true hb hf hres] at h404
      simp at h404
    · rw [process_card_probe_404 d net st cs n lang hb hf hres]
      refine ⟨rfl, rfl, ?_⟩
      intro u hu
      have := (List.mem_replicate.mp hu).2
      simp at this
    · rw [process_card_raised d net st cs n lang true t hb hf hres] at h404
      simp at h404

/-- C5 witness: target ("S0", 1) under the all-404 oracle in probe mode:
state unchanged, probe-404 outcome. -/
theorem C5_witness :
    (process_card dFix netAll404 stEmpty csProbe 1 "en-US" true).st = stEmpty ∧
    (process_card dFix netAll404 stEmpty csProbe 1 "en-US" true).outcome =
      Outcome.probeNotFound := by
  have h := C5_probe_404_silent dFix netAll404 stEmpty csProbe 1 "en-US"
    (by decide) (by decide)
  exact ⟨h.1, h.2.1⟩

/-- C6: every fallback URL lives under the en-US path segment whatever the
requested language; every fallback request made by download_from_fallback
targets that URL regardless of lang; series "b" with catalog code "PROMO"
yields set code "PROMO-B"; the fallback URL of "PROMO-B" number 5 has path
segment "P-B-5"; and a successful fallback write is saved under the
requested language directory with the webp extension. -/
theorem C6_fallback_source :
    (∀ set_code n, ∃ rest, get_fallback_url set_code n =
      FALLBACK_BASE_URL ++ "/en-US/" ++ rest) ∧
    (∀ d net st set_code n lang,
      (download_from_fallback d net st set_code n lang).events =
        [Event.fallbackReq (get_fallback_url set_code n)]) ∧
    fetch_sets_code "b" "PROMO" = "PROMO-B" ∧
    get_fallback_url "PROMO-B" 5 = FALLBACK_BASE_URL ++ "/en-US/" ++ "P-B-5.webp" ∧
    (∀ d net st set_code n lang,
      net.fallback (get_fallback_url set_code n) = true →
      (download_from_fallback d net st set_code n lang).st.fs =
        get_image_path d lang set_code n "webp" :: st.fs) := by
  refine ⟨?_, ?_, by decide, by decide, ?_⟩
  · intro set_code n
    refine ⟨(if pyStartsWith (pyUpper set_code) "PROMO-"
        then "P-" ++ pyDrop set_code 6 else set_code) ++ "-" ++
        toString n ++ ".webp", ?_⟩
    simp only [get_fallback_url, String.append_assoc]
  · intro d net st set_code n lang
    by_cases hfb : net.fallback (get_fallback_url set_code n) = true
    · simp [download_from_fallback, hfb]
    · simp [download_from_fallback, hfb]
  · intro d net st set_code n lang hfb
    simp [download_from_fallback, hfb]

/-- C6 witness: a zh-TW target saved from a successful fallback lands in
the zh-TW directory with the webp extension. -/
theorem C6_witness :
    (download_from_fallback dFix netFbOk stEmpty "S0" 7 "zh-TW").st.fs =
      [get_image_path dFix "zh-TW" "S0" 7 "webp"] :=
  C6_fallback_source.2.2.2.2 dFix netFbOk stEmpty "S0" 7 "zh-TW" rfl

/-- C7: in bulk mode a primary 404 with failed fallback appends
(set_code, primary url) to the missing list and leaves the failed list and
counter alone; a blacklisted target with failed fallback appends to the
failed list and leaves the missing list alone. -/
theorem C7_missing_vs_failed :
    (∀ (d : Downloader) (net : Net) (st : St) (cs : CardSet) (n : Nat)
        (lang : String),
      (cs.set_code, n) ∉ BLACKLIST →
      get_image_path d lang cs.set_code n "png" ∉ st.fs →
      (download_image (net.primary (get_image_url cs.id n lang))).result
        = DLResult.notFound →
      net.fallback (get_fallback_url cs.set_code n) = false →
      (process_card d net st cs n lang false).outcome = Outcome.missing ∧
      (process_card d net st cs n lang false).st.stats.missing_items =
        st.stats.missing_items ++ [(cs.set_code, get_image_url cs.id n lang)] ∧
      (process_card d net st cs n lang false).st.stats.failed_items =
        st.stats.failed_items ∧
      (process_card d net st cs n lang false).st.stats.failed
        = st.stats.failed) ∧
    (∀ (d : Downloader) (net : Net) (st : St) (cs : CardSet) (n : Nat)
        (lang : String) (m : Bool),
      (cs.set_code, n) ∈ BLACKLIST →
      net.fallback (get_fallback_url cs.set_code n) = false →
      (process_card d net st cs n lang m).outcome = Outcome.failed ∧
      (process_card d net st cs n lang m).st.stats.failed_items =
        st.stats.failed_items ++
          [(cs.set_code, "fallback:" ++ cs.set_code ++ "-" ++ toString n)] ∧
      (process_card d net st cs n lang m).st.stats.missing_items =
        st.stats.missing_items) := by
  constructor
  · intro d net st cs n lang hb hf hnf hfb
    rw [process_card_bulk_404_fb_fail d net st cs n lang hb hf hnf hfb]
    exact ⟨rfl, rfl, rfl, rfl⟩
  · intro d net st cs n lang m hb hfb
    rw [process_card_blacklist_fb_fail d net st cs n lang m hb hfb]
    exact ⟨rfl, rfl, rfl⟩

/-- C7 witness: concrete bulk-mode 404-then-failed-fallback records the
primary URL as missing; concrete blacklisted failed-fallback records a
failed entry and no missing entry. -/
theorem C7_witness :
    (process_card dFix netAll404 stEmpty csFix 5 "en-US" false).outcome =
      Outcome.missing ∧
    (process_card dFix netAll404 stEmpty csFix 5 "en-US" false).st.stats.missing_items =
      [("S0", get_image_url "sid" 5 "en-US")] ∧
    (process_card dFix netAll404 stEmpty csBL 63 "en-US" false).outcome =
      Outcome.failed ∧
    (process_card dFix netAll404 stEmpty csBL 63 "en-US" false).st.stats.missing_items =
      [] := by
  have h1 := C7_missing_vs_failed.1 dFix netAll404 stEmpty csFix 5 "en-US"
    (by decide) (by decide) (by decide) rfl
  have h2 := C7_missing_vs_failed.2 dFix netAll404 stEmpty csBL 63 "en-US"
    false (by decide) rfl
  exact ⟨h1.1, h1.2.1, h2.1, h2.2.2⟩

/-- C3: the primary retry policy makes between 1 and 3 total attempts; the
inter-attempt delays follow the exponential schedule, which starts at one
time unit, doubles each attempt and is capped at ten; a 404 returns as a
classification on the first attempt with no retry; a non-transient
exception is re-raised without retry; two transient failures followed by a
success give success after exactly 3 attempts with the non-decreasing
delays [1, 2]; and through process_card that scenario yields Downloaded
after 3 primary requests. -/
theorem C3_retry_policy :
    (∀ net, 1 ≤ (download_image net).attempts ∧
      (download_image net).attempts ≤ 3) ∧
    (∀ net, (download_image net).delays =
      (List.range' 1 ((download_image net).attempts - 1)).map
        (wait_exponential 1 1 10)) ∧
    (wait_exponential 1 1 10 1 = 1 ∧
     (∀ k, wait_exponential 1 1 10 (k + 2) =
        min (2 * wait_exponential 1 1 10 (k + 1)) 10) ∧
     (∀ k, wait_exponential 1 1 10 k ≤ 10)) ∧
    (∀ net, net 1 = NetResult.notFound →
      download_image net = ⟨DLResult.notFound, 1, []⟩) ∧
    (∀ net, net 1 = NetResult.exn false →
      download_image net = ⟨DLResult.raised false, 1, []⟩) ∧
    (∀ net, net 1 = NetResult.exn true → net 2 = NetResult.exn true →
      net 3 = NetResult.ok →
      download_image net = ⟨DLResult.success, 3, [1, 2]⟩) ∧
    (∀ (d : Downloader) (net : Net) (st : St) (cs : CardSet) (n : Nat)
        (lang : String) (m : Bool),
      (cs.set_code, n) ∉ BLACKLIST →
      get_image_path d lang cs.set_code n "png" ∉ st.fs →
      net.primary (get_image_url cs.id n lang) 1 = NetResult.exn true →
      net.primary (get_image_url cs.id n lang) 2 = NetResult.exn true →
      net.primary (get_image_url cs.id n lang) 3 = NetResult.ok →
      (process_card d net st cs n lang m).outcome = Outcome.downloaded ∧
      (process_card d net st cs n lang m).events =
        List.replicate 3 (Event.primaryReq (get_image_url cs.id n lang))) := by
  refine ⟨?_, ?_,
    ⟨wait_exponential_one, wait_exponential_doubling, wait_exponential_cap⟩,
    ?_, ?_, download_image_flaky, ?_⟩
  · intro net
    exact ⟨(download_image_spec net).1, (download_image_spec net).2.1⟩
  · intro net
    exact (download_image_spec net).2.2
  · intro net h
    show retryCall net (1 + 2) 1 [] = _
    rw [retryCall, h]
  · intro net h
    show retryCall net (1 + 2) 1 [] = _
    rw [retryCall, h]
    simp
  · intro d net st cs n lang m hb hf h1 h2 h3
    have hs := download_image_flaky (net.primary (get_image_url cs.id n lang))
      h1 h2 h3
    have hres : (download_image (net.primary (get_image_url cs.id n lang))).result
        = DLResult.success := by rw [hs]
    rw [process_card_primary_success d net st cs n lang m hb hf hres]
    exact ⟨rfl, by rw [hs]⟩

/-- C3 witness: the concrete flaky oracle (transient on attempts 1 and 2,
success on attempt 3) succeeds after exactly 3 attempts with delays 1, 2. -/
theorem C3_witness :
    download_image flakyOracle = ⟨DLResult.success, 3, [1, 2]⟩ ∧
    (download_image flakyOracle).attempts ≤ 3 :=
  ⟨C3_retry_policy.2.2.2.2.2.1 flakyOracle rfl rfl rfl,
   (C3_retry_policy.1 flakyOracle).2⟩

/-- C4: the probe controller over the specification scenario (cards
present at 1-5 and 7, absent at 6 and from 8 onward) visits exactly the
numbers 1 through 10 and requests exactly those ten primary URLs; under an
all-success oracle it visits the whole range up to the ceiling (the
counter is reset by every non-404 outcome); under an all-404 oracle it
stops after exactly 3 consecutive 404s however large the ceiling is. -/
theorem C4_probe_controller :
    ((probe_cards dFix netScenario csProbe "en-US" stEmpty 200).2.1 =
      [1, 2, 3, 4, 5, 6, 7, 8, 9, 10] ∧
     (probe_cards dFix netScenario csProbe "en-US" stEmpty 200).2.2 =
      (List.range' 1 10).map
        (fun n => Event.primaryReq (get_image_url "SID" n "en-US"))) ∧
    (∀ (st : St) (maxN : Nat),
      (probe_cards dFix netOkAll csProbe "en-US" st maxN).2.1 =
        List.range' 1 maxN) ∧
    (∀ k, (probe_cards dFix netAll404 csProbe "en-US" stEmpty (k + 3)).2.1 =
      [1, 2, 3]) := by
  refine ⟨⟨by decide, by decide⟩, ?_, ?_⟩
  · intro st maxN
    exact probe_go_netOkAll dFix csProbe "en-US" (List.range' 1 maxN) 0 st
  · intro k
    have hr : List.range' 1 (k + 3) = 1 :: 2 :: 3 :: List.range' 4 k := by
      rw [show k + 3 = (k + 2) + 1 from rfl, List.range'_succ,
          show k + 2 = (k + 1) + 1 from rfl, List.range'_succ,
          List.range'_succ]
    show (probe_go dFix netAll404 csProbe "en-US"
      (List.range' 1 (k + 3)) 0 stEmpty).2.1 = [1, 2, 3]
    rw [hr]
    have e1 : process_card dFix netAll404 stEmpty csProbe 1 "en-US" true =
        ⟨false, true, Outcome.probeNotFound, stEmpty,
          [Event.primaryReq (get_image_url "SID" 1 "en-US")]⟩ := by decide
    have e2 : process_card dFix netAll404 stEmpty csProbe 2 "en-US" true =
        ⟨false, true, Outcome.probeNotFound, stEmpty,
          [Event.primaryReq (get_image_url "SID" 2 "en-US")]⟩ := by decide
    have e3 : process_card dFix netAll404 stEmpty csProbe 3 "en-US" true =
        ⟨false, true, Outcome.probeNotFound, stEmpty,
          [Event.primaryReq (get_image_url "SID" 3 "en-US")]⟩ := by decide
    simp [probe_go, e1, e2, e3]

/-- C8: running the fan-out twice over the same target list with the same
oracle: the second run produces no Downloaded outcome, and every position
that was Downloaded in the first run is Skipped-exists in the second. -/
theorem C8_second_run_idempotent (d : Downloader) (net : Net)
    (ts : List Target) (st0 : St) :
    (∀ o ∈ (run_targets d net ts (run_targets d net ts st0).1).2,
        o ≠ Outcome.downloaded) ∧
    (∀ i, (run_targets d net ts st0).2.get? i = some Outcome.downloaded →
        (run_targets d net ts (run_targets d net ts st0).1).2.get? i =
          some Outcome.skippedExists) :=
  run_twice_aux d net ts st0 (run_targets d net ts st0).1 (fun _ _ h => h)

/-- C8 witness: a concrete one-target run that downloads on the first pass
is skipped on the second pass. -/
theorem C8_witness :
    (run_targets dFix netOkAll [⟨csFix, 5, "en-US", false⟩]
      (run_targets dFix netOkAll [⟨csFix, 5, "en-US", false⟩] stEmpty).1).2.get? 0 =
      some Outcome.skippedExists :=
  (C8_second_run_idempotent dFix netOkAll [⟨csFix, 5, "en-US", false⟩]
    stEmpty).2 0 (by decide)

/-- C10: the stored max_retries value has no effect on process_card, and
the primary retry policy performs at most 3 attempts regardless. -/
theorem C10_max_retries_unused :
    (∀ (b : String) (ls ss : List String) (mc r1 r2 : Nat) (net : Net)
        (st : St) (cs : CardSet) (n : Nat) (lang : String) (m : Bool),
      process_card ⟨b, ls, ss, mc, r1⟩ net st cs n lang m =
        process_card ⟨b, ls, ss, mc, r2⟩ net st cs n lang m) ∧
    (∀ net, (download_image net).attempts ≤ 3) := by
  constructor
  · intro b ls ss mc r1 r2 net st cs n lang m
    rfl
  · intro net
    exact (download_image_spec net).2.1

end FetchCards
